import Mathlib

/-!
Verification of the road-network sketch cleaner
(`src/SIM/exec.py`, class `RoadNetworkCleaner`).

A raster is embedded as a list of rows of booleans (row-major, `true` =
foreground).  Coordinates are `(x, y)` pairs of naturals, `x` the column and
`y` the row, matching the `(x - 1, y - 1)` tuples produced by
`find_network_points`.  Reading outside the stored rows yields `false`,
which is exactly the semantics of the 1-pixel background pad the code
builds with `np.pad(..., constant_values=0)`.

Euclidean distances are compared through their squares: the code compares
`np.sqrt(dx**2 + dy**2)` against other such square roots and against
`min_road_length`, and for non-negative reals `√a < √b ↔ a < b`, so the
embedding compares the integer squared distances.
-/

namespace RoadNetworkCleaner

abbrev Grid := List (List Bool)

/-- An `(x, y)` pixel coordinate, `x` the column, `y` the row. -/
abbrev Coord := Nat × Nat

/-- Read pixel `(x, y)` of a grid; out of range reads give background,
matching the zero pad of `find_network_points`. -/
def getPix (g : Grid) (y x : Nat) : Bool :=
  (g.getD y []).getD x false

/-- Reading at integer coordinates: negative coordinates are background.
This is the padded-array access `padded[y + 1 + dy, x + 1 + dx]` of
`find_network_points` expressed in original coordinates. -/
def getPixI (g : Grid) (y x : Int) : Bool :=
  if 0 ≤ y ∧ 0 ≤ x then getPix g y.toNat x.toNat else false

/-- Write pixel `(x, y)`; `cleaned[py, px] = b` of `remove_spurious_roads`.
`List.set` out of range is a no-op (the callers guard the bounds anyway). -/
def setPix (g : Grid) (y x : Nat) (b : Bool) : Grid :=
  g.set y ((g.getD y []).set x b)

def boolToNat (b : Bool) : Nat := if b then 1 else 0

/-- The slice sum `padded[y-1:y+2, x-1:x+2].sum()` of `find_network_points`: the sum of
the 3×3 block centred on `(x, y)`, the centre pixel included. -/
def nbhdSum (g : Grid) (x y : Nat) : Nat :=
  ((([-1, 0, 1] : List Int).map fun dy =>
    ((([-1, 0, 1] : List Int).map fun dx =>
      boolToNat (getPixI g ((y : Int) + dy) ((x : Int) + dx))).sum)).sum)

/-- The quantity `neighbors = padded[...].sum() - 1` of `find_network_points`: the count
of foreground cells among the 8 cells surrounding `(x, y)` (the code
subtracts the centre, which is foreground at every use site). -/
def neighborCount (g : Grid) (x y : Nat) : Nat :=
  nbhdSum g x y - 1

/-- The scan order of the two nested loops of `find_network_points`:
`y` from `0` to `h - 1` outermost, `x` from `0` to `w - 1` innermost,
already shifted back from padded to original coordinates. -/
def rowMajor (h w : Nat) : List Coord :=
  (List.range h).flatMap fun y => (List.range w).map fun x => (x, y)

/-- The classification `find_network_points(skeleton)`: endpoints are the foreground pixels
with exactly one foreground neighbour, intersections those with more than
two, each collected in scan order.  `h` and `w` are `self.height` and
`self.width`. -/
def findNetworkPoints (h w : Nat) (g : Grid) : List Coord × List Coord :=
  ((rowMajor h w).filter fun p =>
      getPix g p.2 p.1 && (neighborCount g p.1 p.2 == 1),
   (rowMajor h w).filter fun p =>
      getPix g p.2 p.1 && (2 < neighborCount g p.1 p.2))

/-- The squared Euclidean distance
`(endpoint[0] - intersection[0])**2 + (endpoint[1] - intersection[1])**2`
of `remove_spurious_roads` (the code then takes `np.sqrt`; all
comparisons made of it are reflected faithfully by the squares). -/
def distSq (a b : Coord) : Nat :=
  (((a.1 : Int) - b.1) ^ 2 + ((a.2 : Int) - b.2) ^ 2).toNat

/-- One step of the closest-intersection loop of `remove_spurious_roads`:
`closest_dist`/`closest_int` start at `∞`/`None` (state `none`) and a
candidate replaces them only under the strict test `dist < closest_dist`. -/
def stepClosest (ep : Coord) (acc : Option (Coord × Nat)) (i : Coord) :
    Option (Coord × Nat) :=
  match acc with
  | none => some (i, distSq ep i)
  | some (c, d) => if distSq ep i < d then some (i, distSq ep i) else some (c, d)

/-- The closest-intersection loop of `remove_spurious_roads` for one
endpoint: the selected intersection with its squared distance, `none`
when there is no intersection (`closest_int is None`). -/
def findClosest (ep : Coord) (ints : List Coord) : Option (Coord × Nat) :=
  ints.foldl (stepClosest ep) none

/-- The type of the pathfinding subroutine `self.get_path`: from the
skeleton, an endpoint and an intersection (both `(x, y)`), a list of
`(y, x)` index pairs (`route_through_array` returns `(row, col)` pairs). -/
abbrev PathFn := Grid → Coord → Coord → List (Nat × Nat)

/-- The erase loop of `remove_spurious_roads`:
`for py, px in path: if 0 <= py < height and 0 <= px < width:
cleaned[py, px] = False`.  Coordinates are naturals, so the lower bound
checks are automatic and only `py < h` and `px < w` remain. -/
def erasePath (h w : Nat) (g : Grid) (path : List (Nat × Nat)) : Grid :=
  path.foldl (fun g p => if p.1 < h ∧ p.2 < w then setPix g p.1 p.2 false else g) g

/-- The body of the endpoint loop of `remove_spurious_roads`: find the
closest intersection; when one exists and its distance is strictly below
`min_road_length` (`t`), erase the path `pf` returns for it, otherwise
leave `cleaned` untouched. -/
def processEndpoint (pf : PathFn) (h w t : Nat) (skeleton : Grid)
    (ints : List Coord) (cleaned : Grid) (ep : Coord) : Grid :=
  match findClosest ep ints with
  | some (c, d) => if d < t * t then erasePath h w cleaned (pf skeleton ep c) else cleaned
  | none => cleaned

/-- The pruner `remove_spurious_roads(skeleton, endpoints, intersections)`:
`cleaned = skeleton.copy()` then the endpoint loop; `t` is
`self.min_road_length`, `pf` the pathfinding subroutine `self.get_path`. -/
def removeSpuriousRoads (pf : PathFn) (h w t : Nat) (skeleton : Grid)
    (endpoints ints : List Coord) : Grid :=
  endpoints.foldl (processEndpoint pf h w t skeleton ints) skeleton

/-! ### Pathfinding (`get_path` / `skimage.graph.route_through_array`)

`get_path` builds the cost field `cost_array = ~skeleton` (skeleton pixels
cost 0, background pixels cost 1) and calls the external library routine
`route_through_array(cost_array, start=(y,x), end=(y,x),
fully_connected=True)`, whose source is not part of this repository. -/

/-- Modelled from the spec: the external `route_through_array` call of
`get_path` is not in the repository; §4.2 describes it as the minimum-cost
path over a cost field where skeleton pixels have low cost and background
high cost, 8-connected, returned as `(y, x)` index pairs including both
ends.  Each step is charged the cost of the cell entered, scaled so that
among minimum-weight routes one of fewest steps is selected. -/
def stepCost (g : Grid) (y x : Nat) : Nat :=
  (if getPix g y x then 0 else 1) * 1000000 + 1

/-- The 8-connected neighbours of cell `(y, x)` that lie inside grid `g`
(`fully_connected=True`). -/
def neighbors8 (g : Grid) (y x : Nat) : List (Nat × Nat) :=
  (([-1, 0, 1] : List Int).flatMap fun dy =>
    ([-1, 0, 1] : List Int).filterMap fun dx =>
      if dy = 0 ∧ dx = 0 then none
      else
        let ny := (y : Int) + dy
        let nx := (x : Int) + dx
        if 0 ≤ ny ∧ 0 ≤ nx ∧ ny.toNat < g.length ∧
            nx.toNat < (g.getD ny.toNat []).length then
          some (ny.toNat, nx.toNat)
        else none)

/-- A frontier entry of the search: accumulated cost, current cell, and
the route so far in reverse (current cell first). -/
abbrev Entry := Nat × (Nat × Nat) × List (Nat × Nat)

/-- Pop the first entry of minimal cost off the frontier. -/
def popMin : List Entry → Option (Entry × List Entry)
  | [] => none
  | e :: rest =>
    match popMin rest with
    | none => some (e, [])
    | some (m, rest') =>
      if e.1 ≤ m.1 then some (e, rest) else some (m, e :: rest')

/-- Modelled from the spec: fuelled uniform-cost (Dijkstra) search for the
minimum-cost route of `route_through_array`. -/
def dijkstra (g : Grid) (goal : Nat × Nat) :
    Nat → List (Nat × Nat) → List Entry → List (Nat × Nat)
  | 0, _, _ => []
  | fuel + 1, visited, frontier =>
    match popMin frontier with
    | none => []
    | some ((c, cell, path), rest) =>
      if cell = goal then path.reverse
      else if cell ∈ visited then dijkstra g goal fuel visited rest
      else
        let nbrs := (neighbors8 g cell.1 cell.2).filter fun p => ¬ p ∈ visited
        dijkstra g goal fuel (cell :: visited)
          (rest ++ nbrs.map fun p => (c + stepCost g p.1 p.2, p, p :: path))

/-- An upper bound on the number of frontier pops the search can make:
every pop consumes one pushed entry and at most `8` entries are pushed
per cell, of which there are at most `g.length * maxRowLen`. -/
def dijkstraFuel (g : Grid) : Nat :=
  9 * (g.length + 1) * (g.foldr (fun r a => max r.length a) 0 + 1) + 9

/-- Modelled from the spec: `get_path(skeleton, start, end)` — builds the
cost field from the skeleton and runs the minimum-cost search from
`start` to `end` (both `(x, y)`, converted to `(y, x)` as in the code),
returning the route as `(y, x)` pairs, or `[]` when the search fails. -/
def getPath (skeleton : Grid) (s e : Coord) : List (Nat × Nat) :=
  dijkstra skeleton (e.2, e.1) (dijkstraFuel skeleton) []
    [(0, (s.2, s.1), [(s.2, s.1)])]

/-! ### The literal scenario of §8

A 10×10 raster: foreground line `y = 5`, `x = 1..8`, plus a stub
`x = 4`, `y = 2..4`. -/

/-- One raster row with foreground exactly on the columns in `xs`. -/
def mkRow (w : Nat) (xs : List Nat) : List Bool :=
  (List.range w).map fun x => xs.contains x

/-- The scenario raster of §8: a straight line from `(1,5)` to `(8,5)`
and a perpendicular stub from `(4,5)` to `(4,2)`. -/
def scenario : Grid :=
  [mkRow 10 [], mkRow 10 [], mkRow 10 [4], mkRow 10 [4], mkRow 10 [4],
   mkRow 10 [1, 2, 3, 4, 5, 6, 7, 8], mkRow 10 [], mkRow 10 [],
   mkRow 10 [], mkRow 10 []]

/-! ### Derived notions used by the stated properties -/

/-- The count of foreground cells among the 8 cells surrounding `(x, y)`,
out-of-bounds cells counting as background — the quantity §4.1 of the
design calls `neighbor_count`. -/
def count8 (g : Grid) (x y : Nat) : Nat :=
  (([(-1, -1), (-1, 0), (-1, 1), (0, -1), (0, 1), (1, -1), (1, 0), (1, 1)] :
      List (Int × Int)).map fun d =>
    boolToNat (getPixI g ((y : Int) + d.1) ((x : Int) + d.2))).sum

/-- Whether the endpoint loop of `remove_spurious_roads` enters the erase
branch for `ep`: an intersection was selected and its distance is
strictly below `min_road_length` (`t`). -/
def prunes (ints : List Coord) (t : Nat) (ep : Coord) : Bool :=
  match findClosest ep ints with
  | some (_, d) => decide (d < t * t)
  | none => false

/-- The endpoints for which pruning is performed. -/
def prunedEndpoints (eps ints : List Coord) (t : Nat) : List Coord :=
  eps.filter (prunes ints t)

/-- Row-major order on coordinates: smaller row first, then smaller
column. -/
def rmLT (a b : Coord) : Prop :=
  a.2 < b.2 ∨ (a.2 = b.2 ∧ a.1 < b.1)

/-! ### Helper lemmas -/

lemma mem_rowMajor {h w : Nat} {p : Coord} :
    p ∈ rowMajor h w ↔ p.1 < w ∧ p.2 < h := by
  obtain ⟨x, y⟩ := p
  simp only [rowMajor, List.mem_flatMap, List.mem_map, List.mem_range,
    Prod.mk.injEq]
  constructor
  · rintro ⟨y', hy', x', hx', hxx, hyy⟩
    exact ⟨hxx ▸ hx', hyy ▸ hy'⟩
  · rintro ⟨hx, hy⟩
    exact ⟨y, hy, x, hx, rfl, rfl⟩

lemma mem_endpoints {h w : Nat} {g : Grid} {p : Coord} :
    p ∈ (findNetworkPoints h w g).1 ↔
      p.1 < w ∧ p.2 < h ∧ getPix g p.2 p.1 = true ∧
        neighborCount g p.1 p.2 = 1 := by
  simp only [findNetworkPoints, List.mem_filter, mem_rowMajor,
    Bool.and_eq_true, beq_iff_eq]
  tauto

lemma mem_intersections {h w : Nat} {g : Grid} {p : Coord} :
    p ∈ (findNetworkPoints h w g).2 ↔
      p.1 < w ∧ p.2 < h ∧ getPix g p.2 p.1 = true ∧
        2 < neighborCount g p.1 p.2 := by
  simp only [findNetworkPoints, List.mem_filter, mem_rowMajor,
    Bool.and_eq_true, decide_eq_true_eq]
  tauto

/-- When the centre pixel is foreground, the code's
`3×3 sum minus one` equals the count of the 8 surrounding cells. -/
lemma neighborCount_eq_count8 {g : Grid} {x y : Nat}
    (hfg : getPix g y x = true) : neighborCount g x y = count8 g x y := by
  have hc : getPixI g ((y : Int) + 0) ((x : Int) + 0) = true := by
    simpa [getPixI] using hfg
  simp only [neighborCount, nbhdSum, count8, List.map_cons, List.map_nil,
    List.sum_cons, List.sum_nil, hc, boolToNat, if_true]
  omega

/-! ### Classification (claim C1) -/

/-- C1: for every foreground pixel of the skeleton raster, classification
computes the count of foreground cells among its 8 surrounding cells
(out-of-bounds cells counting as background, via the 1-pixel pad); the
pixel is reported as an endpoint iff that count equals 1, as an
intersection iff that count exceeds 2, and the two reported sets are
disjoint. -/
theorem classification_rule (h w : Nat) (g : Grid) (x y : Nat)
    (hx : x < w) (hy : y < h) (hfg : getPix g y x = true) :
    neighborCount g x y = count8 g x y ∧
    ((x, y) ∈ (findNetworkPoints h w g).1 ↔ count8 g x y = 1) ∧
    ((x, y) ∈ (findNetworkPoints h w g).2 ↔ 2 < count8 g x y) ∧
    ∀ p : Coord,
      ¬(p ∈ (findNetworkPoints h w g).1 ∧ p ∈ (findNetworkPoints h w g).2) := by
  have hnc := neighborCount_eq_count8 hfg
  refine ⟨hnc, ?_, ?_, ?_⟩
  · rw [mem_endpoints, ← hnc]
    simp [hx, hy, hfg]
  · rw [mem_intersections, ← hnc]
    simp [hx, hy, hfg]
  · rintro p ⟨hp1, hp2⟩
    rw [mem_endpoints] at hp1
    rw [mem_intersections] at hp2
    omega

theorem classification_rule_witness :
    neighborCount scenario 4 5 = count8 scenario 4 5 ∧
    ((4, 5) ∈ (findNetworkPoints 10 10 scenario).1 ↔ count8 scenario 4 5 = 1) ∧
    ((4, 5) ∈ (findNetworkPoints 10 10 scenario).2 ↔ 2 < count8 scenario 4 5) ∧
    ∀ p : Coord, ¬(p ∈ (findNetworkPoints 10 10 scenario).1 ∧
      p ∈ (findNetworkPoints 10 10 scenario).2) :=
  classification_rule 10 10 scenario 4 5 (by decide) (by decide) (by decide)

/-! ### The literal scenario (claim C2) -/

/-- C2, counterexample: on the §8 scenario raster the classification does
not report `(4,5)` as the only intersection — `(4,4)` and `(3,5)` are
reported as well (they have more than 2 foreground neighbours) — and the
full pipeline with `min_road_length = 4` resets the main-line pixel
`(2,5)` to background, contradicting "the main line remains intact". -/
theorem scenario_claim_refuted :
    (4, 4) ∈ (findNetworkPoints 10 10 scenario).2 ∧
    (3, 5) ∈ (findNetworkPoints 10 10 scenario).2 ∧
    getPix (removeSpuriousRoads getPath 10 10 4 scenario
      (findNetworkPoints 10 10 scenario).1
      (findNetworkPoints 10 10 scenario).2) 5 2 = false := by decide

/-- C2, amended: on the §8 scenario raster the classification returns the
endpoints `(4,2), (1,5), (8,5)` (in scan order) and the four
intersections `(4,4), (3,5), (4,5), (5,5)`; pruning with
`min_road_length = 4` then erases the stub `(4,2),(4,3),(4,4)` and, since
every endpoint is within distance 4 of an intersection, also
`(1,5),(2,5),(3,5)` and `(8,5),(7,5),(6,5),(5,5)`, leaving `(4,5)` as the
only foreground pixel. -/
theorem scenario_actual_behavior :
    findNetworkPoints 10 10 scenario =
      ([(4, 2), (1, 5), (8, 5)], [(4, 4), (3, 5), (4, 5), (5, 5)]) ∧
    removeSpuriousRoads getPath 10 10 4 scenario
      [(4, 2), (1, 5), (8, 5)] [(4, 4), (3, 5), (4, 5), (5, 5)] =
      [mkRow 10 [], mkRow 10 [], mkRow 10 [], mkRow 10 [], mkRow 10 [],
       mkRow 10 [4], mkRow 10 [], mkRow 10 [], mkRow 10 [], mkRow 10 []] := by
  decide

/-! ### Fold helpers -/

lemma foldl_id {α β : Type} (f : β → α → β) (init : β) (l : List α)
    (hstep : ∀ acc a, a ∈ l → f acc a = acc) : l.foldl f init = init := by
  induction l generalizing init with
  | nil => rfl
  | cons a l ih =>
    rw [List.foldl_cons, hstep init a (by simp)]
    exact ih init fun acc b hb => hstep acc b (by simp [hb])

lemma foldl_middle_id {α β : Type} (f : β → α → β) (init : β)
    (l1 l2 : List α) (a : α) (ha : ∀ acc, f acc a = acc) :
    (l1 ++ a :: l2).foldl f init = (l1 ++ l2).foldl f init := by
  rw [List.foldl_append, List.foldl_append, List.foldl_cons, ha]

lemma foldl_preserves {α β : Type} (Q : β → Prop) (f : β → α → β)
    (l : List α) (init : β) (hinit : Q init)
    (hstep : ∀ acc a, Q acc → Q (f acc a)) : Q (l.foldl f init) := by
  induction l generalizing init with
  | nil => exact hinit
  | cons a l ih => exact ih _ (hstep _ _ hinit)

lemma length_filter_mono {α : Type} (l : List α) (p q : α → Bool)
    (himp : ∀ a, p a = true → q a = true) :
    (l.filter p).length ≤ (l.filter q).length := by
  induction l with
  | nil => simp
  | cons a l ih =>
    by_cases hp : p a = true
    · simp only [List.filter_cons, hp, himp a hp, if_true, List.length_cons]
      exact Nat.succ_le_succ ih
    · have hp' : p a = false := by revert hp; cases p a <;> simp
      cases hq : q a
      · simp only [List.filter_cons, hp', hq, Bool.false_eq_true, if_false]
        exact ih
      · simp only [List.filter_cons, hp', hq, Bool.false_eq_true, if_false,
          if_true, List.length_cons]
        exact Nat.le_succ_of_le ih

/-! ### Degenerate topology (claim C3) -/

/-- C3: with no endpoints or no intersections, pruning returns the
skeleton unchanged — with no intersection, `closest_int` stays `None`
and every endpoint is skipped. -/
theorem prune_degenerate_identity (pf : PathFn) (h w t : Nat) (skel : Grid)
    (eps ints : List Coord) (hdeg : eps = [] ∨ ints = []) :
    removeSpuriousRoads pf h w t skel eps ints = skel := by
  rcases hdeg with he | hi
  · subst he; rfl
  · subst hi
    exact foldl_id _ _ _ fun acc ep _ => rfl

theorem prune_degenerate_identity_witness :
    removeSpuriousRoads getPath 10 10 20 scenario
      [(4, 2), (1, 5), (8, 5)] [] = scenario :=
  prune_degenerate_identity getPath 10 10 20 scenario
    [(4, 2), (1, 5), (8, 5)] [] (Or.inr rfl)

/-! ### Distance threshold skip (claim C5) -/

/-- C5: an endpoint whose minimal squared distance to the intersections is
at least `min_road_length²` (i.e. whose minimal Euclidean distance is at
least `min_road_length`) is skipped: its loop iteration is the identity
for every path function, so no pathfinding result is ever consulted and
no pixel is erased for it; a path is erased only under the strict
comparison. -/
theorem far_endpoint_skipped (pf : PathFn) (h w t : Nat) (skel : Grid)
    (ints : List Coord) (ep : Coord)
    (hfar : ∀ c d, findClosest ep ints = some (c, d) → t * t ≤ d) :
    (∀ cleaned, processEndpoint pf h w t skel ints cleaned ep = cleaned) ∧
    ∀ eps1 eps2,
      removeSpuriousRoads pf h w t skel (eps1 ++ ep :: eps2) ints =
        removeSpuriousRoads pf h w t skel (eps1 ++ eps2) ints := by
  have hid : ∀ cleaned, processEndpoint pf h w t skel ints cleaned ep = cleaned := by
    intro cleaned
    unfold processEndpoint
    cases hfc : findClosest ep ints with
    | none => rfl
    | some cd =>
      obtain ⟨c, d⟩ := cd
      have hge := hfar c d hfc
      show (if d < t * t then erasePath h w cleaned (pf skel ep c) else cleaned) =
        cleaned
      rw [if_neg (by omega)]
  exact ⟨hid, fun eps1 eps2 => foldl_middle_id _ _ _ _ _ hid⟩

theorem far_endpoint_skipped_witness :
    processEndpoint getPath 10 10 4 scenario [(9, 9)] scenario (0, 0) = scenario ∧
    removeSpuriousRoads getPath 10 10 4 scenario [(0, 0)] [(9, 9)] =
      removeSpuriousRoads getPath 10 10 4 scenario [] [(9, 9)] := by
  have hmain := far_endpoint_skipped getPath 10 10 4 scenario [(9, 9)] (0, 0)
    (by
      intro c d hcd
      have heval : findClosest (0, 0) [(9, 9)] = some ((9, 9), 162) := by decide
      rw [heval] at hcd
      obtain ⟨hc, hd⟩ := Prod.mk.injEq _ _ _ _ ▸ Option.some.inj hcd
      omega)
  exact ⟨hmain.1 scenario, hmain.2 [] []⟩

/-! ### Pathfinding failure (claim C8) -/

/-- C8: when pathfinding fails for an endpoint (modelled, as in
`get_path`, by an empty returned route), that endpoint's loop iteration
leaves the cleaned raster unchanged and the remaining endpoints are
processed exactly as if the failing endpoint were absent — no per-endpoint
failure aborts the operation. -/
theorem pathfinding_failure_skipped (pf : PathFn) (h w t : Nat) (skel : Grid)
    (ints : List Coord) (ep : Coord) (hfail : ∀ c, pf skel ep c = []) :
    (∀ cleaned, processEndpoint pf h w t skel ints cleaned ep = cleaned) ∧
    ∀ eps1 eps2,
      removeSpuriousRoads pf h w t skel (eps1 ++ ep :: eps2) ints =
        removeSpuriousRoads pf h w t skel (eps1 ++ eps2) ints := by
  have hid : ∀ cleaned, processEndpoint pf h w t skel ints cleaned ep = cleaned := by
    intro cleaned
    unfold processEndpoint
    cases hfc : findClosest ep ints with
    | none => rfl
    | some cd =>
      obtain ⟨c, d⟩ := cd
      show (if d < t * t then erasePath h w cleaned (pf skel ep c) else cleaned) =
        cleaned
      by_cases hd : d < t * t
      · rw [if_pos hd, hfail c]; rfl
      · rw [if_neg hd]
  exact ⟨hid, fun eps1 eps2 => foldl_middle_id _ _ _ _ _ hid⟩

theorem pathfinding_failure_skipped_witness :
    processEndpoint (fun _ _ _ => []) 10 10 20 scenario [(4, 4)] scenario (4, 2) =
      scenario ∧
    removeSpuriousRoads (fun _ _ _ => []) 10 10 20 scenario [(4, 2)] [(4, 4)] =
      removeSpuriousRoads (fun _ _ _ => []) 10 10 20 scenario [] [(4, 4)] := by
  have hmain := pathfinding_failure_skipped (fun _ _ _ => []) 10 10 20 scenario
    [(4, 4)] (4, 2) (fun _ => rfl)
  exact ⟨hmain.1 scenario, hmain.2 [] []⟩

/-! ### Threshold monotonicity (claim C4) -/

/-- C4: for fixed endpoint and intersection sets, the endpoints pruned
under threshold `t1 ≤ t2` are a subset of those pruned under `t2`, their
number never decreases, and an endpoint outside the pruned set has an
identity loop iteration. -/
theorem threshold_monotone (eps ints : List Coord) (t1 t2 : Nat)
    (hle : t1 ≤ t2) :
    (∀ ep ∈ prunedEndpoints eps ints t1, ep ∈ prunedEndpoints eps ints t2) ∧
    (prunedEndpoints eps ints t1).length ≤ (prunedEndpoints eps ints t2).length ∧
    ∀ (pf : PathFn) (h w t : Nat) (skel cleaned : Grid) (ep : Coord),
      prunes ints t ep = false →
      processEndpoint pf h w t skel ints cleaned ep = cleaned := by
  have himp : ∀ ep, prunes ints t1 ep = true → prunes ints t2 ep = true := by
    intro ep
    unfold prunes
    cases hfc : findClosest ep ints with
    | none => simp
    | some cd =>
      obtain ⟨c, d⟩ := cd
      simp only [decide_eq_true_eq]
      intro hd
      calc d < t1 * t1 := hd
        _ ≤ t2 * t2 := Nat.mul_le_mul hle hle
  refine ⟨?_, ?_, ?_⟩
  · intro ep hep
    unfold prunedEndpoints at hep ⊢
    rw [List.mem_filter] at hep ⊢
    exact ⟨hep.1, himp ep hep.2⟩
  · exact length_filter_mono _ _ _ himp
  · intro pf h w t skel cleaned ep hfalse
    unfold prunes at hfalse
    unfold processEndpoint
    cases hfc : findClosest ep ints with
    | none => rfl
    | some cd =>
      obtain ⟨c, d⟩ := cd
      rw [hfc] at hfalse
      simp only [decide_eq_false_iff_not] at hfalse
      show (if d < t * t then erasePath h w cleaned (pf skel ep c) else cleaned) =
        cleaned
      rw [if_neg hfalse]

theorem threshold_monotone_witness :
    (4, 2) ∈ prunedEndpoints [(4, 2)] [(4, 4)] 4 ∧
    (prunedEndpoints [(4, 2)] [(4, 4)] 3).length ≤
      (prunedEndpoints [(4, 2)] [(4, 4)] 4).length := by
  have hmain := threshold_monotone [(4, 2)] [(4, 4)] 3 4 (by decide)
  exact ⟨hmain.1 (4, 2) (by decide), hmain.2.1⟩

/-! ### Raster update lemmas -/

lemma getD_row_setPix (g : Grid) (y x : Nat) (b : Bool) (i : Nat) :
    (setPix g y x b).getD i [] =
      if y = i then (g.getD i []).set x b else g.getD i [] := by
  unfold setPix
  rw [List.getD_eq_getElem?_getD, List.getD_eq_getElem?_getD]
  by_cases hyi : y = i
  · subst hyi
    rw [List.getElem?_set_self', if_pos rfl]
    cases hg : g[y]? with
    | none => simp [List.getD_eq_getElem?_getD, hg]
    | some r => simp [List.getD_eq_getElem?_getD, hg]
  · rw [List.getElem?_set_ne hyi, if_neg hyi, List.getD_eq_getElem?_getD]

lemma length_row_setPix (g : Grid) (y x : Nat) (b : Bool) (i : Nat) :
    ((setPix g y x b).getD i []).length = (g.getD i []).length := by
  rw [getD_row_setPix]
  by_cases hyi : y = i
  · rw [if_pos hyi, List.length_set]
  · rw [if_neg hyi]

lemma length_setPix (g : Grid) (y x : Nat) (b : Bool) :
    (setPix g y x b).length = g.length := List.length_set ..

lemma getPix_setPix_false {g : Grid} {y x y' x' : Nat}
    (hfg : getPix (setPix g y x false) y' x' = true) :
    getPix g y' x' = true := by
  unfold getPix at hfg
  rw [getD_row_setPix] at hfg
  by_cases hyy : y = y'
  · rw [if_pos hyy] at hfg
    subst hyy
    rw [List.getD_eq_getElem?_getD] at hfg
    by_cases hxx : x = x'
    · subst hxx
      rw [List.getElem?_set_self'] at hfg
      cases hg : (g.getD y [])[x]? with
      | none => rw [hg] at hfg; exact absurd hfg (by simp)
      | some b => rw [hg] at hfg; exact absurd hfg (by simp)
    · rw [List.getElem?_set_ne hxx] at hfg
      unfold getPix
      rw [List.getD_eq_getElem?_getD]
      exact hfg
  · rw [if_neg hyy] at hfg
    exact hfg

/-- Unfolding `erasePath` one step. -/
lemma erasePath_cons (h w : Nat) (g : Grid) (q : Nat × Nat)
    (rest : List (Nat × Nat)) :
    erasePath h w g (q :: rest) =
      erasePath h w (if q.1 < h ∧ q.2 < w then setPix g q.1 q.2 false else g)
        rest := rfl

lemma shape_erasePath (h w : Nat) (g : Grid) (path : List (Nat × Nat)) :
    (erasePath h w g path).length = g.length ∧
    ∀ i, ((erasePath h w g path).getD i []).length = (g.getD i []).length := by
  unfold erasePath
  apply foldl_preserves
    (fun (c : Grid) => c.length = g.length ∧
      ∀ i, (c.getD i []).length = (g.getD i []).length) _ _ _ ⟨rfl, fun _ => rfl⟩
  intro acc p hQ
  by_cases hp : p.1 < h ∧ p.2 < w
  · rw [if_pos hp]
    exact ⟨(length_setPix ..).trans hQ.1,
      fun i => (length_row_setPix ..).trans (hQ.2 i)⟩
  · rw [if_neg hp]; exact hQ

lemma getPix_erasePath {h w : Nat} {g : Grid} {path : List (Nat × Nat)}
    {y x : Nat} (hfg : getPix (erasePath h w g path) y x = true) :
    getPix g y x = true := by
  revert hfg
  unfold erasePath
  apply foldl_preserves
    (fun (c : Grid) => getPix c y x = true → getPix g y x = true) _ _ _ id
  intro acc p hQ hfg
  by_cases hp : p.1 < h ∧ p.2 < w
  · rw [if_pos hp] at hfg; exact hQ (getPix_setPix_false hfg)
  · rw [if_neg hp] at hfg; exact hQ hfg

lemma shape_processEndpoint (pf : PathFn) (h w t : Nat) (skel : Grid)
    (ints : List Coord) (acc : Grid) (ep : Coord) :
    (processEndpoint pf h w t skel ints acc ep).length = acc.length ∧
    ∀ i, ((processEndpoint pf h w t skel ints acc ep).getD i []).length =
      (acc.getD i []).length := by
  unfold processEndpoint
  cases findClosest ep ints with
  | none => exact ⟨rfl, fun _ => rfl⟩
  | some cd =>
    obtain ⟨c, d⟩ := cd
    show (if d < t * t then erasePath h w acc (pf skel ep c) else acc).length =
        acc.length ∧
      ∀ i, ((if d < t * t then erasePath h w acc (pf skel ep c) else acc).getD
        i []).length = (acc.getD i []).length
    by_cases hd : d < t * t
    · rw [if_pos hd]; exact shape_erasePath ..
    · rw [if_neg hd]; exact ⟨rfl, fun _ => rfl⟩

lemma getPix_processEndpoint {pf : PathFn} {h w t : Nat} {skel : Grid}
    {ints : List Coord} {acc : Grid} {ep : Coord} {y x : Nat}
    (hfg : getPix (processEndpoint pf h w t skel ints acc ep) y x = true) :
    getPix acc y x = true := by
  revert hfg
  unfold processEndpoint
  cases findClosest ep ints with
  | none => exact id
  | some cd =>
    obtain ⟨c, d⟩ := cd
    show getPix (if d < t * t then erasePath h w acc (pf skel ep c) else acc)
        y x = true → _
    by_cases hd : d < t * t
    · rw [if_pos hd]; exact getPix_erasePath
    · rw [if_neg hd]; exact id

/-! ### Dimension preservation (claim C6) -/

/-- C6: pruning returns a raster with the height (number of rows) and
width (length of every row) of the input skeleton, for every path
function, threshold and endpoint/intersection configuration; the input
skeleton itself appears unchanged on the right-hand sides (the embedding
is pure, as the code only ever writes into the fresh `skeleton.copy()`
and the fresh cost array `~skeleton`). -/
theorem prune_preserves_shape (pf : PathFn) (h w t : Nat) (skel : Grid)
    (eps ints : List Coord) :
    (removeSpuriousRoads pf h w t skel eps ints).length = skel.length ∧
    ∀ i, ((removeSpuriousRoads pf h w t skel eps ints).getD i []).length =
      (skel.getD i []).length := by
  unfold removeSpuriousRoads
  apply foldl_preserves
    (fun (c : Grid) => c.length = skel.length ∧
      ∀ i, (c.getD i []).length = (skel.getD i []).length) _ _ _
    ⟨rfl, fun _ => rfl⟩
  intro acc ep hQ
  have hs := shape_processEndpoint pf h w t skel ints acc ep
  exact ⟨hs.1.trans hQ.1, fun i => (hs.2 i).trans (hQ.2 i)⟩

/-! ### Foreground subset (claim C9) -/

/-- C9: every foreground pixel of the cleaned raster is a foreground
pixel of the input skeleton — pruning only resets pixels to background. -/
theorem cleaned_foreground_subset (pf : PathFn) (h w t : Nat) (skel : Grid)
    (eps ints : List Coord) (y x : Nat)
    (hfg : getPix (removeSpuriousRoads pf h w t skel eps ints) y x = true) :
    getPix skel y x = true := by
  revert hfg
  unfold removeSpuriousRoads
  apply foldl_preserves
    (fun (c : Grid) => getPix c y x = true → getPix skel y x = true) _ _ _ id
  intro acc ep hQ hfg
  exact hQ (getPix_processEndpoint hfg)

theorem cleaned_foreground_subset_witness :
    getPix scenario 5 4 = true :=
  cleaned_foreground_subset getPath 10 10 4 scenario
    [(4, 2), (1, 5), (8, 5)] [(4, 4), (3, 5), (4, 5), (5, 5)] 5 4 (by decide)

/-! ### Coordinate bounds and guarded writes (claim C7) -/

/-- C7: every coordinate reported by classification lies in
`[0, w) × [0, h)`, and the erase loop is insensitive to out-of-range
path coordinates: erasing a path equals erasing its in-bounds
restriction, so every performed write is at an in-bounds coordinate
(coordinates are naturals, so the lower bound checks of the code are
automatic). -/
theorem coordinates_in_bounds (h w : Nat) (g : Grid) :
    (∀ p : Coord,
      p ∈ (findNetworkPoints h w g).1 ∨ p ∈ (findNetworkPoints h w g).2 →
      p.1 < w ∧ p.2 < h) ∧
    ∀ (c : Grid) (path : List (Nat × Nat)),
      erasePath h w c path =
        erasePath h w c
          (path.filter fun q => decide (q.1 < h) && decide (q.2 < w)) := by
  constructor
  · rintro p (hp | hp)
    · have := mem_endpoints.1 hp
      exact ⟨this.1, this.2.1⟩
    · have := mem_intersections.1 hp
      exact ⟨this.1, this.2.1⟩
  · intro c path
    induction path generalizing c with
    | nil => rfl
    | cons q rest ih =>
      by_cases hq : q.1 < h ∧ q.2 < w
      · have hb : (decide (q.1 < h) && decide (q.2 < w)) = true := by
          simp [hq.1, hq.2]
        rw [List.filter_cons, if_pos hb, erasePath_cons, erasePath_cons,
          if_pos hq]
        exact ih _
      · have hb : ¬((decide (q.1 < h) && decide (q.2 < w)) = true) := by
          simpa using hq
        rw [List.filter_cons, if_neg hb, erasePath_cons, if_neg hq]
        exact ih _

theorem coordinates_in_bounds_witness :
    ((4 : Nat) < 10 ∧ (4 : Nat) < 10) ∧
    erasePath 10 10 scenario [(3, 4), (12, 12)] =
      erasePath 10 10 scenario
        ([(3, 4), (12, 12)].filter fun q =>
          decide (q.1 < 10) && decide (q.2 < 10)) :=
  ⟨(coordinates_in_bounds 10 10 scenario).1 (4, 4) (Or.inr (by decide)),
   (coordinates_in_bounds 10 10 scenario).2 scenario [(3, 4), (12, 12)]⟩

/-! ### Tie-breaking of the closest-intersection selection (claim C10) -/

lemma pairwise_rowMajor (h w : Nat) : (rowMajor h w).Pairwise rmLT := by
  induction h with
  | zero => simp [rowMajor]
  | succ n ih =>
    unfold rowMajor at ih ⊢
    rw [List.range_succ, List.flatMap_append]
    apply List.pairwise_append.2
    refine ⟨ih, ?_, ?_⟩
    · simp only [List.flatMap_cons, List.flatMap_nil, List.append_nil]
      apply List.pairwise_map.2
      apply List.Pairwise.imp ?_ (List.pairwise_lt_range w)
      intro a b hab
      exact Or.inr ⟨rfl, hab⟩
    · intro a ha b hb
      simp only [List.flatMap_cons, List.flatMap_nil, List.append_nil,
        List.mem_map, List.mem_range] at hb
      obtain ⟨x, hx, rfl⟩ := hb
      exact Or.inl (mem_rowMajor.1 ha).2

lemma pairwise_intersections (h w : Nat) (g : Grid) :
    ((findNetworkPoints h w g).2).Pairwise rmLT :=
  List.Pairwise.sublist (List.filter_sublist _) (pairwise_rowMajor h w)

/-- Invariant of the closest-intersection loop started from a candidate
`(c, d)`: the final state holds the first strict improvement chain's
result — its distance is minimal, and every candidate listed before the
selected one is at a strictly larger distance. -/
lemma findClosest_from (ep : Coord) (l : List Coord) :
    ∀ (c : Coord) (d : Nat), d = distSq ep c →
      ∃ c' d', l.foldl (stepClosest ep) (some (c, d)) = some (c', d') ∧
        d' = distSq ep c' ∧ d' ≤ d ∧ (∀ i ∈ l, d' ≤ distSq ep i) ∧
        ((c' = c ∧ d' = d) ∨
          (d' < d ∧ ∃ l1 l2, l = l1 ++ c' :: l2 ∧
            ∀ i ∈ l1, d' < distSq ep i)) := by
  induction l with
  | nil =>
    intro c d hd
    exact ⟨c, d, rfl, hd, le_refl d, by simp, Or.inl ⟨rfl, rfl⟩⟩
  | cons i l ih =>
    intro c d hd
    rw [List.foldl_cons]
    by_cases hlt : distSq ep i < d
    · have hstep : stepClosest ep (some (c, d)) i = some (i, distSq ep i) := by
        show (if distSq ep i < d then some (i, distSq ep i) else some (c, d)) =
          some (i, distSq ep i)
        rw [if_pos hlt]
      rw [hstep]
      obtain ⟨c', d', heq, hd', hle, hall, hpos⟩ := ih i (distSq ep i) rfl
      refine ⟨c', d', heq, hd', le_of_lt (lt_of_le_of_lt hle hlt), ?_, ?_⟩
      · intro j hj
        rcases List.mem_cons.1 hj with hji | hjl
        · subst hji; exact hle
        · exact hall j hjl
      · right
        rcases hpos with ⟨hcc, hdd⟩ | ⟨hlt', l1, l2, hsplit, hstrict⟩
        · subst hcc; subst hdd
          exact ⟨hlt, [], l, rfl, by simp⟩
        · refine ⟨lt_trans hlt' hlt, i :: l1, l2, by rw [hsplit]; rfl, ?_⟩
          intro j hj
          rcases List.mem_cons.1 hj with hji | hjl
          · subst hji; exact hlt'
          · exact hstrict j hjl
    · have hstep : stepClosest ep (some (c, d)) i = some (c, d) := by
        show (if distSq ep i < d then some (i, distSq ep i) else some (c, d)) =
          some (c, d)
        rw [if_neg hlt]
      rw [hstep]
      obtain ⟨c', d', heq, hd', hle, hall, hpos⟩ := ih c d hd
      have hdi : d ≤ distSq ep i := Nat.le_of_not_lt hlt
      refine ⟨c', d', heq, hd', hle, ?_, ?_⟩
      · intro j hj
        rcases List.mem_cons.1 hj with hji | hjl
        · subst hji; exact le_trans hle hdi
        · exact hall j hjl
      · rcases hpos with ⟨hcc, hdd⟩ | ⟨hlt', l1, l2, hsplit, hstrict⟩
        · exact Or.inl ⟨hcc, hdd⟩
        · refine Or.inr ⟨hlt', i :: l1, l2, by rw [hsplit]; rfl, ?_⟩
          intro j hj
          rcases List.mem_cons.1 hj with hji | hjl
          · subst hji; exact lt_of_lt_of_le hlt' hdi
          · exact hstrict j hjl

lemma findClosest_first_min (ep : Coord) (ints : List Coord) (c : Coord)
    (d : Nat) (hfc : findClosest ep ints = some (c, d)) :
    d = distSq ep c ∧ (∀ i ∈ ints, d ≤ distSq ep i) ∧
      ∃ l1 l2, ints = l1 ++ c :: l2 ∧ ∀ i ∈ l1, d < distSq ep i := by
  cases ints with
  | nil => exact absurd hfc (by simp [findClosest])
  | cons i l =>
    unfold findClosest at hfc
    rw [List.foldl_cons] at hfc
    have hstep : stepClosest ep none i = some (i, distSq ep i) := rfl
    rw [hstep] at hfc
    obtain ⟨c', d', heq, hd', hle, hall, hpos⟩ :=
      findClosest_from ep l i (distSq ep i) rfl
    rw [heq] at hfc
    obtain ⟨hc, hd⟩ : c' = c ∧ d' = d := by
      have hinj := Option.some.inj hfc
      exact ⟨congrArg Prod.fst hinj, congrArg Prod.snd hinj⟩
    subst hc; subst hd
    refine ⟨hd', ?_, ?_⟩
    · intro j hj
      rcases List.mem_cons.1 hj with hji | hjl
      · subst hji; exact hle
      · exact hall j hjl
    · rcases hpos with ⟨hcc, hdd⟩ | ⟨hlt', l1, l2, hsplit, hstrict⟩
      · exact ⟨[], l, by simp [hcc], by simp⟩
      · refine ⟨i :: l1, l2, by rw [hsplit]; rfl, ?_⟩
        intro j hj
        rcases List.mem_cons.1 hj with hji | hjl
        · subst hji; exact hlt'
        · exact hstrict j hjl

/-- C10: when several intersections tie at the minimal Euclidean distance
from an endpoint, the strict comparison of the loop keeps the first
candidate reaching the minimum, so the selected intersection is the first
minimizer in the intersections list — and that list is produced in
strictly increasing row-major scan order (smaller `y` first, then smaller
`x`), fixing the tie-break. -/
theorem closest_selection_deterministic :
    (∀ (ep : Coord) (ints : List Coord) (c : Coord) (d : Nat),
      findClosest ep ints = some (c, d) →
      d = distSq ep c ∧ (∀ i ∈ ints, d ≤ distSq ep i) ∧
        ∃ l1 l2, ints = l1 ++ c :: l2 ∧ ∀ i ∈ l1, d < distSq ep i) ∧
    ∀ (h w : Nat) (g : Grid), ((findNetworkPoints h w g).2).Pairwise rmLT :=
  ⟨findClosest_first_min, pairwise_intersections⟩

theorem closest_selection_deterministic_witness :
    (25 : Nat) = distSq (0, 0) (3, 4) ∧
    (∀ i ∈ ([(3, 4), (5, 0), (4, 3)] : List Coord), 25 ≤ distSq (0, 0) i) ∧
    ∃ l1 l2, ([(3, 4), (5, 0), (4, 3)] : List Coord) = l1 ++ (3, 4) :: l2 ∧
      ∀ i ∈ l1, 25 < distSq (0, 0) i :=
  closest_selection_deterministic.1 (0, 0) [(3, 4), (5, 0), (4, 3)] (3, 4) 25
    (by decide)

end RoadNetworkCleaner
